import Mathlib

/-!
Verification of the Forseti Security project-IAM-policies ingestion
pipeline (load_projects_iam_policies_pipeline.py) and of the logging
handler selection (log_util.py), as a shallow embedding in Lean 4.

Python dictionaries with optional keys are embedded as structures with
Option fields together with the .get accessors that supply the source's
default values.  Python string operations used by the source
(str.startswith, str.replace) are embedded as executable functions over
the underlying character lists with Python semantics.  Fallible
collaborator calls (database selector, API fetch, table writes) are
injected as Except / Option valued parameters, and the mutable database
and the in-place mutation of the policy maps performed by _load are made
explicit by state passing.
-/

/-! ## Error types (data_access.errors, gcp_api.errors, inventory.errors) -/

inductive ApiErr where
  | apiExecutionError (msg : String)
deriving DecidableEq

inductive DataAccessErr where
  | csvFileError (msg : String)
  | mySQLError (msg : String)
deriving DecidableEq

inductive PipelineErr where
  | loadDataPipelineError (cause : DataAccessErr)
deriving DecidableEq

/-! ## Data model: policies, bindings, members -/

structure MemberInfo where
  member_type : String
  member_name : String
  member_domain : String
deriving DecidableEq

structure Binding where
  role : Option String
  members : Option (List String)
deriving DecidableEq

/-- binding.get('role', '') -/
def Binding.getRole (b : Binding) : String := b.role.getD ""

/-- binding.get('members', []) -/
def Binding.getMembers (b : Binding) : List String := b.members.getD []

structure Policy where
  bindings : Option (List Binding)
deriving DecidableEq

/-- iam_policy.get('bindings', []) -/
def Policy.getBindings (p : Policy) : List Binding := p.bindings.getD []

/-- A dictionary as appended by _retrieve:
both keys are always present, iam_policy holds the nested policy. -/
structure IamPolicyMap where
  project_number : Nat
  iam_policy : Policy
deriving DecidableEq

/-- One flattened row as yielded by _flatten. -/
structure FlatRecord where
  project_number : Nat
  role : String
  member_type : String
  member_name : String
  member_domain : String
deriving DecidableEq

/-! ## Python string primitives used by the source -/

/-- Python list-level startswith: does the second list head the first? -/
def listStarts : List Char → List Char → Bool
  | _, [] => true
  | [], _ :: _ => false
  | c :: cs, p :: ps => c == p && listStarts cs ps

/-- Python str.startswith. -/
def pyStarts (s pat : String) : Bool := listStarts s.data pat.data

/-- Python str.replace for a non-empty pattern, over character lists:
replace each non-overlapping occurrence, scanning the input left to
right and continuing after the replaced occurrence.  The first argument
counts characters of a partially consumed occurrence still to skip. -/
def pyReplaceAux (pat rep : List Char) : Nat → List Char → List Char
  | _, [] => []
  | Nat.succ k, _ :: cs => pyReplaceAux pat rep k cs
  | 0, c :: cs =>
    if !pat.isEmpty && listStarts (c :: cs) pat then
      rep ++ pyReplaceAux pat rep (pat.length - 1) cs
    else
      c :: pyReplaceAux pat rep 0 cs

/-- Python str.replace (non-empty pattern). -/
def pyReplace (s pat rep : String) : String :=
  String.mk (pyReplaceAux pat.data rep.data 0 s.data)

/-! ## The _flatten stage (source: _flatten, lines 88-115) -/

/-- The dictionary yielded by _flatten for one member of a binding whose
role passed the startswith test: role is role.replace('roles/', ''). -/
def emittedRecord (parse : String → MemberInfo) (pn : Nat) (role : String)
    (mem : String) : FlatRecord :=
  { project_number := pn
    role := pyReplace role "roles/" ""
    member_type := (parse mem).member_type
    member_name := (parse mem).member_name
    member_domain := (parse mem).member_domain }

/-- The inner member loop of _flatten: parse_member_info is called on
every member; a record is yielded only under the startswith test. -/
def flattenMembers (parse : String → MemberInfo) (pn : Nat) (role : String) :
    List String → List FlatRecord
  | [] => []
  | mem :: rest =>
    (if pyStarts role "roles/" then [emittedRecord parse pn role mem] else [])
      ++ flattenMembers parse pn role rest

/-- The member loop for one binding of _flatten. -/
def flattenBinding (parse : String → MemberInfo) (pn : Nat) (b : Binding) :
    List FlatRecord :=
  flattenMembers parse pn b.getRole b.getMembers

/-- The binding loop of _flatten. -/
def flattenBindings (parse : String → MemberInfo) (pn : Nat) :
    List Binding → List FlatRecord
  | [] => []
  | b :: rest => flattenBinding parse pn b ++ flattenBindings parse pn rest

/-- All records _flatten yields for one iam_policy_map. -/
def flattenOne (parse : String → MemberInfo) (m : IamPolicyMap) :
    List FlatRecord :=
  flattenBindings parse m.project_number m.iam_policy.getBindings

/-- _flatten: the generator materialized as the list of yielded rows. -/
def flatten (parse : String → MemberInfo) : List IamPolicyMap → List FlatRecord
  | [] => []
  | m :: rest => flattenOne parse m ++ flatten parse rest

/-! ## _flatten with a fallible parser and a trace of parser invocations.
This is the exception-aware embedding: the only operation of the
generator body that can raise is the external parse_member_info call, so
the generator is modelled in Except over the parser's error type, and
the list of member strings passed to the parser is recorded. -/

def flattenMembersE {ε : Type} (parse : String → Except ε MemberInfo)
    (pn : Nat) (role : String) :
    List String → Except ε (List FlatRecord × List String)
  | [] => Except.ok ([], [])
  | mem :: rest =>
    match parse mem with
    | Except.error e => Except.error e
    | Except.ok info =>
      match flattenMembersE parse pn role rest with
      | Except.error e => Except.error e
      | Except.ok (recs, calls) =>
        Except.ok
          ((if pyStarts role "roles/" then
              [{ project_number := pn
                 role := pyReplace role "roles/" ""
                 member_type := info.member_type
                 member_name := info.member_name
                 member_domain := info.member_domain }]
            else []) ++ recs,
            mem :: calls)

def flattenBindingsE {ε : Type} (parse : String → Except ε MemberInfo)
    (pn : Nat) : List Binding → Except ε (List FlatRecord × List String)
  | [] => Except.ok ([], [])
  | b :: rest =>
    match flattenMembersE parse pn b.getRole b.getMembers with
    | Except.error e => Except.error e
    | Except.ok (recs, calls) =>
      match flattenBindingsE parse pn rest with
      | Except.error e => Except.error e
      | Except.ok (recs2, calls2) => Except.ok (recs ++ recs2, calls ++ calls2)

def flattenE {ε : Type} (parse : String → Except ε MemberInfo) :
    List IamPolicyMap → Except ε (List FlatRecord × List String)
  | [] => Except.ok ([], [])
  | m :: rest =>
    match flattenBindingsE parse m.project_number m.iam_policy.getBindings with
    | Except.error e => Except.error e
    | Except.ok (recs, calls) =>
      match flattenE parse rest with
      | Except.error e => Except.error e
      | Except.ok (recs2, calls2) => Except.ok (recs ++ recs2, calls ++ calls2)

/-! ## Serialization (_load mutates each map: i['iam_policy'] = json.dumps(...)) -/

/-- The iam_policy value of a map dictionary: either still the nested
policy structure, or the serialized text json.dumps put in its place. -/
inductive PolicyField where
  | policy (p : Policy)
  | text (s : String)
deriving DecidableEq

/-- The map dictionary as seen from _load onward. -/
structure StoredMap where
  project_number : Nat
  iam_policy : PolicyField
deriving DecidableEq

/-- The dictionary built by _retrieve, viewed at entry of _load:
iam_policy still holds the nested policy. -/
def IamPolicyMap.toStored (m : IamPolicyMap) : StoredMap :=
  { project_number := m.project_number
    iam_policy := PolicyField.policy m.iam_policy }

def jsonEscape (s : String) : String :=
  s.foldl
    (fun acc c =>
      if c = '\\' then acc ++ "\\\\"
      else if c = '"' then acc ++ "\\\""
      else acc ++ String.singleton c)
    ""

def jsonStr (s : String) : String := "\"" ++ jsonEscape s ++ "\""

def jsonBinding (b : Binding) : String :=
  "\x7b" ++
    String.intercalate ", "
      ((match b.role with
        | some r => [jsonStr "role" ++ ": " ++ jsonStr r]
        | none => []) ++
       (match b.members with
        | some ms =>
          [jsonStr "members" ++ ": " ++
            ("[" ++ String.intercalate ", " (ms.map jsonStr) ++ "]")]
        | none => [])) ++
  "\x7d"

def jsonPolicy (p : Policy) : String :=
  "\x7b" ++
    (match p.bindings with
     | some bs =>
       jsonStr "bindings" ++ ": " ++
         ("[" ++ String.intercalate ", " (bs.map jsonBinding) ++ "]")
     | none => "") ++
  "\x7d"

/-- json.dumps on the current iam_policy value. -/
def jsonDumps : PolicyField → String
  | PolicyField.policy p => jsonPolicy p
  | PolicyField.text s => jsonStr s

/-- The in-place mutation _load performs on each map dictionary. -/
def serializeStored (m : StoredMap) : StoredMap :=
  { project_number := m.project_number
    iam_policy := PolicyField.text (jsonDumps m.iam_policy) }

/-! ## The database and the _load stage (source: _load, lines 52-86) -/

/-- The two tables written by the pipeline, under one cycle timestamp. -/
structure DB where
  flatRows : List FlatRecord
  rawRows : List StoredMap

def dbEmpty : DB := { flatRows := [], rawRows := [] }

/-- dao.load_data: appends the given rows, or raises the injected
CSVFileError / MySQLError outcome. -/
def loadData (outcome : Option DataAccessErr) (append : DB → DB) (db : DB) :
    Except DataAccessErr DB :=
  match outcome with
  | some e => Except.error e
  | none => Except.ok (append db)

structure LoadOut where
  result : Except PipelineErr Unit
  db : DB
  maps : List StoredMap

/-- _load: first writes the flattened rows, then mutates each map in
place (iam_policy := json.dumps(iam_policy)) and writes the raw maps;
a CSVFileError or MySQLError from either write is re-raised as
LoadDataPipelineError.  The maps field records the state of the map
dictionaries when _load returns or raises. -/
def load (fo ro : Option DataAccessErr) (maps : List IamPolicyMap)
    (flattened : List FlatRecord) (db : DB) : LoadOut :=
  let stored := maps.map IamPolicyMap.toStored
  match loadData fo (fun d => { d with flatRows := d.flatRows ++ flattened }) db with
  | Except.error e =>
    { result := Except.error (PipelineErr.loadDataPipelineError e)
      db := db, maps := stored }
  | Except.ok db1 =>
    let mutated := stored.map serializeStored
    match loadData ro (fun d => { d with rawRows := d.rawRows ++ mutated }) db1 with
    | Except.error e =>
      { result := Except.error (PipelineErr.loadDataPipelineError e)
        db := db1, maps := mutated }
    | Except.ok db2 =>
      { result := Except.ok (), db := db2, maps := mutated }

/-! ## The _retrieve stage (source: _retrieve, lines 117-150) -/

structure RetrieveOut where
  maps : List IamPolicyMap
  logs : List (Nat × ApiErr)
  calls : List Nat

/-- The per-project fetch loop of _retrieve: a successful fetch appends
a map, an ApiExecutionError is logged with the project number and the
project is skipped; calls records every get_project_iam_policies call. -/
def retrieveLoop (fetch : Nat → Except ApiErr Policy) : List Nat → RetrieveOut
  | [] => { maps := [], logs := [], calls := [] }
  | pn :: rest =>
    match fetch pn with
    | Except.ok p =>
      let r := retrieveLoop fetch rest
      { maps := { project_number := pn, iam_policy := p } :: r.maps
        logs := r.logs
        calls := pn :: r.calls }
    | Except.error e =>
      let r := retrieveLoop fetch rest
      { maps := r.maps
        logs := (pn, e) :: r.logs
        calls := pn :: r.calls }

/-- _retrieve: a MySQLError from select_project_numbers is re-raised as
LoadDataPipelineError before any fetch; otherwise the fetch loop runs. -/
def retrieve (sel : Except String (List Nat))
    (fetch : Nat → Except ApiErr Policy) : Except PipelineErr RetrieveOut :=
  match sel with
  | Except.error msg =>
    Except.error (PipelineErr.loadDataPipelineError (DataAccessErr.mySQLError msg))
  | Except.ok pns => Except.ok (retrieveLoop fetch pns)

/-! ## The run method (source: run, lines 153-174) -/

structure RunOut where
  result : Except PipelineErr Unit
  db : DB
  maps : List StoredMap
  fetchCalls : List Nat
  logs : List (Nat × ApiErr)

/-- run: _retrieve, then _flatten, then _load; an exception anywhere is
the run's result.  db is the database after the run, fetchCalls the
project numbers for which a per-id fetch was issued, logs the error log
entries written by _retrieve. -/
def run (sel : Except String (List Nat)) (fetch : Nat → Except ApiErr Policy)
    (parse : String → MemberInfo) (fo ro : Option DataAccessErr) (db : DB) :
    RunOut :=
  match retrieve sel fetch with
  | Except.error e =>
    { result := Except.error e, db := db, maps := [], fetchCalls := [], logs := [] }
  | Except.ok r =>
    let flattened := flatten parse r.maps
    let lo := load fo ro r.maps flattened db
    { result := lo.result, db := lo.db, maps := lo.maps
      fetchCalls := r.calls, logs := r.logs }

/-! ## log_util.py: handler selection in LogUtil.get_logger -/

inductive Handler where
  | streamHandler
  | cloudHandler
deriving DecidableEq

/-- Handler selection of LogUtil.get_logger, lines 57-68 of log_util.py.
The branch guarded by use_cloud_logging or is_gce has an empty body
(pass) in the source, so it changes nothing. -/
def get_logger (use_cloud_logging nouse_cloud_logging is_gce : Bool) : Handler :=
  let handler := Handler.streamHandler
  let handler := if use_cloud_logging || is_gce then handler else handler
  let handler := if nouse_cloud_logging then Handler.streamHandler else handler
  handler

/-- Modelled from the spec: the documented selection of log_util's module
docstring (missing from the code's behavior): cloud logging when the
use_cloud_logging flag is set or the process runs on Compute Engine,
local logging forced by the nouse_cloud_logging flag. -/
def documentedHandler (use_cloud_logging nouse_cloud_logging is_gce : Bool) :
    Handler :=
  if nouse_cloud_logging then Handler.streamHandler
  else if use_cloud_logging || is_gce then Handler.cloudHandler
  else Handler.streamHandler

/-! ## Claim-side definitions (from the spec's wording) -/

/-- Members of one binding that survive the role filter (spec section 8). -/
def bindingFilteredCount (b : Binding) : Nat :=
  if pyStarts b.getRole "roles/" then b.getMembers.length else 0

/-- Member count of one policy map after the role filter. -/
def mapFilteredCount (m : IamPolicyMap) : Nat :=
  (m.iam_policy.getBindings.map bindingFilteredCount).sum

/-- Modelled from the spec (section 4.3): output ordering is resource id,
then binding order, then member order, as encountered. -/
def flattenSpec (parse : String → MemberInfo) (maps : List IamPolicyMap) :
    List FlatRecord :=
  maps.flatMap fun m =>
    m.iam_policy.getBindings.flatMap fun b =>
      b.getMembers.flatMap fun mem =>
        if pyStarts b.getRole "roles/" then
          [emittedRecord parse m.project_number b.getRole mem]
        else []

/-- Every member of every binding of every map, in encounter order:
the member strings the parser is expected to be invoked on. -/
def allBindingMembers (maps : List IamPolicyMap) : List String :=
  maps.flatMap fun m => m.iam_policy.getBindings.flatMap fun b => b.getMembers

/-- The spec's reading of the role transformation: the canonical six
character leading marker stripped once. -/
def dropCanonical (role : String) : String := String.mk (role.data.drop 6)

def isOkB {ε α : Type} : Except ε α → Bool
  | Except.ok _ => true
  | Except.error _ => false

/-! ## Concrete inputs for witnesses and counterexamples -/

def cParse : String → MemberInfo := fun mem =>
  { member_type := "user", member_name := mem, member_domain := "x.com" }

def cBindingNested : Binding :=
  { role := some "roles/roles/owner", members := some ["user:a@x.com"] }

def cMapsNested : List IamPolicyMap :=
  [{ project_number := 111, iam_policy := { bindings := some [cBindingNested] } }]

def wPolicy : Policy :=
  { bindings := some [{ role := some "roles/owner", members := some ["user:a@x.com"] }] }

def wErr : ApiErr := ApiErr.apiExecutionError "boom"

def wFetch : Nat → Except ApiErr Policy
  | 222 => Except.error wErr
  | _ => Except.ok wPolicy

def wPns : List Nat := [111, 222]

def wRec : FlatRecord :=
  { project_number := 111, role := "owner", member_type := "user"
    member_name := "user:a@x.com", member_domain := "x.com" }

/-! ## Helper lemmas -/

theorem flattenMembers_eq (parse : String → MemberInfo) (pn : Nat) (role : String)
    (mems : List String) :
    flattenMembers parse pn role mems =
      if pyStarts role "roles/" then mems.map (emittedRecord parse pn role) else [] := by
  induction mems with
  | nil => split <;> rfl
  | cons mem rest ih =>
    simp only [flattenMembers, ih]
    split <;> simp

theorem flattenBindings_flatMap (parse : String → MemberInfo) (pn : Nat)
    (bs : List Binding) :
    flattenBindings parse pn bs = bs.flatMap (flattenBinding parse pn) := by
  induction bs with
  | nil => rfl
  | cons b rest ih => simp [flattenBindings, ih]

theorem flatten_flatMap (parse : String → MemberInfo) (maps : List IamPolicyMap) :
    flatten parse maps = maps.flatMap (flattenOne parse) := by
  induction maps with
  | nil => rfl
  | cons m rest ih => simp [flatten, ih]

theorem flattenBinding_length (parse : String → MemberInfo) (pn : Nat) (b : Binding) :
    (flattenBinding parse pn b).length = bindingFilteredCount b := by
  rw [flattenBinding, flattenMembers_eq, bindingFilteredCount]
  split <;> simp

theorem flattenBindings_length (parse : String → MemberInfo) (pn : Nat)
    (bs : List Binding) :
    (flattenBindings parse pn bs).length = (bs.map bindingFilteredCount).sum := by
  induction bs with
  | nil => rfl
  | cons b rest ih => simp [flattenBindings, flattenBinding_length, ih]

theorem flattenOne_length (parse : String → MemberInfo) (m : IamPolicyMap) :
    (flattenOne parse m).length = mapFilteredCount m :=
  flattenBindings_length parse m.project_number m.iam_policy.getBindings

theorem flatten_length (parse : String → MemberInfo) (maps : List IamPolicyMap) :
    (flatten parse maps).length = (maps.map mapFilteredCount).sum := by
  induction maps with
  | nil => rfl
  | cons m rest ih => simp [flatten, flattenOne_length, ih]

theorem map_proj_emitted (parse : String → MemberInfo) (pn : Nat) (role : String)
    (mems : List String) :
    (mems.map (emittedRecord parse pn role)).map FlatRecord.project_number
      = List.replicate mems.length pn := by
  induction mems with
  | nil => rfl
  | cons mem rest ih => simp [ih, emittedRecord, List.replicate_succ]

theorem flattenMembers_proj (parse : String → MemberInfo) (pn : Nat) (role : String)
    (mems : List String) :
    (flattenMembers parse pn role mems).map FlatRecord.project_number
      = List.replicate (if pyStarts role "roles/" then mems.length else 0) pn := by
  rw [flattenMembers_eq]
  split
  · exact map_proj_emitted parse pn role mems
  · rfl

theorem flattenBindings_proj (parse : String → MemberInfo) (pn : Nat)
    (bs : List Binding) :
    (flattenBindings parse pn bs).map FlatRecord.project_number
      = List.replicate ((bs.map bindingFilteredCount).sum) pn := by
  induction bs with
  | nil => rfl
  | cons b rest ih =>
    rw [flattenBindings, List.map_append, ih, flattenBinding, flattenMembers_proj]
    rw [List.map_cons, List.sum_cons, List.replicate_add, bindingFilteredCount]

theorem flattenOne_proj (parse : String → MemberInfo) (m : IamPolicyMap) :
    (flattenOne parse m).map FlatRecord.project_number
      = List.replicate (mapFilteredCount m) m.project_number :=
  flattenBindings_proj parse m.project_number m.iam_policy.getBindings

theorem mem_flatten_proj (parse : String → MemberInfo) (maps : List IamPolicyMap)
    (r : FlatRecord) (h : r ∈ flatten parse maps) :
    r.project_number ∈ maps.map IamPolicyMap.project_number := by
  rw [flatten_flatMap] at h
  rcases List.mem_flatMap.mp h with ⟨m, hm, hr⟩
  have hproj : r.project_number ∈ (flattenOne parse m).map FlatRecord.project_number :=
    List.mem_map_of_mem _ hr
  rw [flattenOne_proj] at hproj
  rw [List.eq_of_mem_replicate hproj]
  exact List.mem_map_of_mem _ hm

theorem stored_proj (maps : List IamPolicyMap) :
    ((maps.map IamPolicyMap.toStored).map serializeStored).map StoredMap.project_number
      = maps.map IamPolicyMap.project_number := by
  induction maps with
  | nil => rfl
  | cons m rest ih => simp [serializeStored, IamPolicyMap.toStored, ih]

theorem run_ok_none (pns : List Nat) (fetch : Nat → Except ApiErr Policy)
    (parse : String → MemberInfo) (db : DB) :
    run (Except.ok pns) fetch parse none none db =
      { result := Except.ok ()
        db := { flatRows := db.flatRows ++ flatten parse (retrieveLoop fetch pns).maps
                rawRows := db.rawRows ++
                  ((retrieveLoop fetch pns).maps.map IamPolicyMap.toStored).map serializeStored }
        maps := ((retrieveLoop fetch pns).maps.map IamPolicyMap.toStored).map serializeStored
        fetchCalls := (retrieveLoop fetch pns).calls
        logs := (retrieveLoop fetch pns).logs } := rfl

theorem retrieveLoop_maps_proj (fetch : Nat → Except ApiErr Policy) (pns : List Nat) :
    ((retrieveLoop fetch pns).maps).map IamPolicyMap.project_number
      = pns.filter (fun q => isOkB (fetch q)) := by
  induction pns with
  | nil => rfl
  | cons pn rest ih =>
    cases h : fetch pn with
    | ok p => simp [retrieveLoop, h, List.filter_cons, isOkB, ih]
    | error e => simp [retrieveLoop, h, List.filter_cons, isOkB, ih]

theorem retrieveLoop_logs_mem (fetch : Nat → Except ApiErr Policy) (pns : List Nat)
    (pn : Nat) (e : ApiErr) (h1 : pn ∈ pns) (h2 : fetch pn = Except.error e) :
    (pn, e) ∈ (retrieveLoop fetch pns).logs := by
  induction pns with
  | nil => cases h1
  | cons q rest ih =>
    rcases List.mem_cons.mp h1 with rfl | hmem
    · simp [retrieveLoop, h2]
    · cases hq : fetch q with
      | ok p => simpa [retrieveLoop, hq] using ih hmem
      | error e2 =>
        simp only [retrieveLoop, hq, List.mem_cons]
        exact Or.inr (ih hmem)

theorem retrieveLoop_calls (fetch : Nat → Except ApiErr Policy) (pns : List Nat) :
    (retrieveLoop fetch pns).calls = pns := by
  induction pns with
  | nil => rfl
  | cons pn rest ih => cases h : fetch pn <;> simp [retrieveLoop, h, ih]

theorem flattenMembers_flatMap (parse : String → MemberInfo) (pn : Nat) (role : String)
    (mems : List String) :
    flattenMembers parse pn role mems =
      mems.flatMap (fun mem =>
        if pyStarts role "roles/" then [emittedRecord parse pn role mem] else []) := by
  induction mems with
  | nil => rfl
  | cons mem rest ih => simp only [flattenMembers, ih, List.flatMap_cons]

theorem flattenOne_spec (parse : String → MemberInfo) (m : IamPolicyMap) :
    flattenOne parse m =
      m.iam_policy.getBindings.flatMap (fun b =>
        b.getMembers.flatMap (fun mem =>
          if pyStarts b.getRole "roles/" then
            [emittedRecord parse m.project_number b.getRole mem]
          else [])) := by
  show flattenBindings parse m.project_number m.iam_policy.getBindings = _
  rw [flattenBindings_flatMap]
  exact congrArg (List.flatMap _) (funext fun b =>
    flattenMembers_flatMap parse m.project_number b.getRole b.getMembers)

theorem flatten_eq_flattenSpec (parse : String → MemberInfo) (maps : List IamPolicyMap) :
    flatten parse maps = flattenSpec parse maps := by
  induction maps with
  | nil => rfl
  | cons m rest ih =>
    simp only [flatten, flattenSpec, List.flatMap_cons, ih, flattenOne_spec]

theorem flatten_append (parse : String → MemberInfo) (l1 l2 : List IamPolicyMap) :
    flatten parse (l1 ++ l2) = flatten parse l1 ++ flatten parse l2 := by
  induction l1 with
  | nil => rfl
  | cons m rest ih => simp [flatten, ih]

theorem flattenMembersE_ok {ε : Type} (parse : String → MemberInfo) (pn : Nat)
    (role : String) (mems : List String) :
    flattenMembersE (fun s => (Except.ok (parse s) : Except ε MemberInfo)) pn role mems
      = Except.ok (flattenMembers parse pn role mems, mems) := by
  induction mems with
  | nil => rfl
  | cons mem rest ih => simp [flattenMembersE, ih, flattenMembers, emittedRecord]

theorem flattenBindingsE_ok {ε : Type} (parse : String → MemberInfo) (pn : Nat)
    (bs : List Binding) :
    flattenBindingsE (fun s => (Except.ok (parse s) : Except ε MemberInfo)) pn bs
      = Except.ok (flattenBindings parse pn bs, bs.flatMap Binding.getMembers) := by
  induction bs with
  | nil => rfl
  | cons b rest ih =>
    simp [flattenBindingsE, flattenMembersE_ok, ih, flattenBindings, flattenBinding]

/-! ## Claim theorems -/

/-- Claim C1: for every collection of policy maps whose bindings have
m1, ..., mn members each after the role filter, _flatten produces exactly
the sum of the mi records, and every produced record carries the
project_number of the policy map it was derived from (the records of one
map all carry that map's project_number, and the output is exactly the
concatenation of the per-map records). -/
theorem flatten_count_and_resource_id (parse : String → MemberInfo)
    (maps : List IamPolicyMap) :
    (flatten parse maps).length = (maps.map mapFilteredCount).sum ∧
    flatten parse maps = maps.flatMap (flattenOne parse) ∧
    ∀ m : IamPolicyMap, (flattenOne parse m).map FlatRecord.project_number
      = List.replicate (mapFilteredCount m) m.project_number :=
  ⟨flatten_length parse maps, flatten_flatMap parse maps,
    fun m => flattenOne_proj parse m⟩

/-- Claim C2 counterexample: for the binding role "roles/roles/owner" the
code emits the role "owner", because str.replace removes every occurrence
of "roles/", while the claim's once-stripped role is "roles/owner". -/
theorem role_replace_counterexample :
    (flatten cParse cMapsNested).map FlatRecord.role = ["owner"] ∧
    dropCanonical "roles/roles/owner" = "roles/owner" ∧
    ("owner" : String) ≠ "roles/owner" := by decide

/-- Claim C2 (amended): for every binding, a flattened record is emitted
for its members iff the role starts with the canonical marker "roles/"
(a binding without it yields no record for any member), and each emitted
record's role equals the original role with every non-overlapping
occurrence of "roles/" removed (Python str.replace semantics), which
coincides with stripping the leading marker whenever "roles/" does not
occur again later in the role. -/
theorem flattenBinding_role_filter (parse : String → MemberInfo) (pn : Nat)
    (b : Binding) :
    (flattenBinding parse pn b =
      if pyStarts b.getRole "roles/" then
        b.getMembers.map (emittedRecord parse pn b.getRole)
      else []) ∧
    ∀ mem : String,
      (emittedRecord parse pn b.getRole mem).role = pyReplace b.getRole "roles/" "" :=
  ⟨flattenMembers_eq parse pn b.getRole b.getMembers, fun _ => rfl⟩

/-- Claim C3: a per-id fetch failure (ApiExecutionError) is logged with
the failing project number, that project is absent from the retrieve
output, and the run still flattens and writes the policies of every
project whose fetch succeeded, completing without a fatal error. -/
theorem fetch_failure_isolated (pns : List Nat) (fetch : Nat → Except ApiErr Policy)
    (parse : String → MemberInfo) (pn : Nat) (e : ApiErr)
    (hmem : pn ∈ pns) (hfail : fetch pn = Except.error e) :
    pn ∉ ((retrieveLoop fetch pns).maps.map IamPolicyMap.project_number) ∧
    (pn, e) ∈ (retrieveLoop fetch pns).logs ∧
    (run (Except.ok pns) fetch parse none none dbEmpty).result = Except.ok () ∧
    ((run (Except.ok pns) fetch parse none none dbEmpty).db.rawRows).map
        StoredMap.project_number
      = pns.filter (fun q => isOkB (fetch q)) ∧
    (run (Except.ok pns) fetch parse none none dbEmpty).db.flatRows
      = flatten parse (retrieveLoop fetch pns).maps := by
  refine ⟨?_, retrieveLoop_logs_mem fetch pns pn e hmem hfail, ?_, ?_, ?_⟩
  · rw [retrieveLoop_maps_proj]
    intro hc
    have hok := (List.mem_filter.mp hc).2
    rw [hfail] at hok
    simp [isOkB] at hok
  · rw [run_ok_none]
  · rw [run_ok_none]
    show (dbEmpty.rawRows ++ _).map StoredMap.project_number = _
    rw [dbEmpty]
    simp only [List.nil_append]
    rw [stored_proj, retrieveLoop_maps_proj]
  · rw [run_ok_none]
    show dbEmpty.flatRows ++ _ = _
    rw [dbEmpty]
    simp only [List.nil_append]

/-- Witness for C3 at the concrete selection [111, 222] where the fetch
of 222 fails and the fetch of 111 succeeds. -/
theorem fetch_failure_isolated_witness :
    (222 ∈ wPns ∧ wFetch 222 = Except.error wErr) ∧
    (222 ∉ ((retrieveLoop wFetch wPns).maps.map IamPolicyMap.project_number) ∧
     (222, wErr) ∈ (retrieveLoop wFetch wPns).logs ∧
     (run (Except.ok wPns) wFetch cParse none none dbEmpty).result = Except.ok () ∧
     ((run (Except.ok wPns) wFetch cParse none none dbEmpty).db.rawRows).map
         StoredMap.project_number
       = wPns.filter (fun q => isOkB (wFetch q)) ∧
     (run (Except.ok wPns) wFetch cParse none none dbEmpty).db.flatRows
       = flatten cParse (retrieveLoop wFetch wPns).maps) :=
  ⟨⟨by decide, rfl⟩,
    fetch_failure_isolated wPns wFetch cParse 222 wErr (by decide) rfl⟩

/-- Claim C4: when the selector itself fails, run raises the single
wrapped fatal error, the database is untouched (zero rows written to
either table) and no per-id fetch call is made. -/
theorem selection_failure_aborts (msg : String) (fetch : Nat → Except ApiErr Policy)
    (parse : String → MemberInfo) (fo ro : Option DataAccessErr) (db : DB) :
    run (Except.error msg) fetch parse fo ro db =
      { result := Except.error
          (PipelineErr.loadDataPipelineError (DataAccessErr.mySQLError msg))
        db := db, maps := [], fetchCalls := [], logs := [] } := rfl

/-- Claim C5: a CSVFileError or MySQLError from either table write is
fatal: _load raises LoadDataPipelineError carrying the underlying cause,
even when the flattened-table write already succeeded (in which case the
flattened rows remain written, with no retry and no rollback). -/
theorem load_write_failure_fatal (maps : List IamPolicyMap)
    (flattened : List FlatRecord) (db : DB) (e : DataAccessErr) :
    (∀ ro : Option DataAccessErr,
      (load (some e) ro maps flattened db).result
        = Except.error (PipelineErr.loadDataPipelineError e) ∧
      (load (some e) ro maps flattened db).db.flatRows = db.flatRows ∧
      (load (some e) ro maps flattened db).db.rawRows = db.rawRows) ∧
    ((load none (some e) maps flattened db).result
        = Except.error (PipelineErr.loadDataPipelineError e) ∧
     (load none (some e) maps flattened db).db.flatRows = db.flatRows ++ flattened) :=
  ⟨fun _ => ⟨rfl, rfl, rfl⟩, ⟨rfl, rfl⟩⟩

/-- Claim C6: every record produced by _flatten in a run carries a
project_number that appears among the project numbers of the raw rows
written in the same run, i.e. among the successfully retrieved maps;
flattening never introduces a new resource id. -/
theorem flatten_ids_from_written (pns : List Nat) (fetch : Nat → Except ApiErr Policy)
    (parse : String → MemberInfo) (r : FlatRecord)
    (h : r ∈ (run (Except.ok pns) fetch parse none none dbEmpty).db.flatRows) :
    r.project_number ∈
      ((run (Except.ok pns) fetch parse none none dbEmpty).db.rawRows).map
        StoredMap.project_number := by
  rw [run_ok_none] at h ⊢
  show r.project_number ∈ (dbEmpty.rawRows ++ _).map StoredMap.project_number
  rw [dbEmpty] at h ⊢
  simp only [List.nil_append] at h ⊢
  rw [stored_proj]
  exact mem_flatten_proj parse _ r h

/-- Witness for C6: the single record flattened from project 111 carries
a project number among those written to the raw table. -/
theorem flatten_ids_from_written_witness :
    (wRec ∈ (run (Except.ok wPns) wFetch cParse none none dbEmpty).db.flatRows) ∧
    wRec.project_number ∈
      ((run (Except.ok wPns) wFetch cParse none none dbEmpty).db.rawRows).map
        StoredMap.project_number :=
  ⟨by decide, flatten_ids_from_written wPns wFetch cParse wRec (by decide)⟩

/-- Claim C7: the flattened output is ordered by input map order, then
binding order, then member order, as encountered (it equals the ordered
nested flatMap of the spec), it distributes over concatenation without
reordering, and duplicated input is duplicated in the output (no
deduplication). -/
theorem flatten_encounter_order (parse : String → MemberInfo) :
    (∀ maps : List IamPolicyMap, flatten parse maps = flattenSpec parse maps) ∧
    (∀ l1 l2 : List IamPolicyMap,
      flatten parse (l1 ++ l2) = flatten parse l1 ++ flatten parse l2) ∧
    (∀ maps : List IamPolicyMap,
      (flatten parse (maps ++ maps)).length = 2 * (flatten parse maps).length) := by
  refine ⟨flatten_eq_flattenSpec parse, flatten_append parse, fun maps => ?_⟩
  rw [flatten_append, List.length_append, Nat.two_mul]

/-- Claim C8: _flatten cannot fail on the maps produced by _retrieve: in
the exception-aware embedding, where the external member parser is the
only operation of the generator body that can raise, a total parser makes
_flatten return all rows without error, and the parser is invoked on
every member of every binding, including the members of bindings whose
role lacks the "roles/" marker. -/
theorem flatten_cannot_fail {ε : Type} (parse : String → MemberInfo)
    (maps : List IamPolicyMap) :
    flattenE (fun s => (Except.ok (parse s) : Except ε MemberInfo)) maps
      = Except.ok (flatten parse maps, allBindingMembers maps) := by
  induction maps with
  | nil => rfl
  | cons m rest ih =>
    simp [flattenE, flattenBindingsE_ok, ih, flatten, flattenOne, allBindingMembers]

/-- Claim C9 counterexample: after a successful _load, the map returned
by _retrieve no longer holds the original nested policy in iam_policy:
the field has been replaced in place by its json.dumps text. -/
theorem load_mutates_maps_counterexample :
    ¬ ((load none none cMapsNested (flatten cParse cMapsNested) dbEmpty).maps
        = cMapsNested.map IamPolicyMap.toStored) := by decide

/-- Claim C9 (amended): the flatten stage leaves the maps unchanged and
they are still unmutated if the flattened-table write fails, but once
that write succeeds _load replaces each map's iam_policy in place with
its json.dumps serialization: after _load each map holds the serialized
text of the original policy, not the nested structure. -/
theorem load_serializes_in_place (maps : List IamPolicyMap)
    (flattened : List FlatRecord) (db : DB) (e : DataAccessErr)
    (ro : Option DataAccessErr) :
    ((load (some e) ro maps flattened db).maps = maps.map IamPolicyMap.toStored) ∧
    ((load none ro maps flattened db).maps
        = (maps.map IamPolicyMap.toStored).map serializeStored) ∧
    (∀ m : IamPolicyMap, serializeStored m.toStored =
      { project_number := m.project_number
        iam_policy := PolicyField.text (jsonDumps (PolicyField.policy m.iam_policy)) }) := by
  refine ⟨rfl, ?_, fun _ => rfl⟩
  cases ro <;> rfl

/-- Claim C10 (code bug): get_logger never attaches a cloud handler; the
branch guarded by use_cloud_logging or is_gce has an empty body, so for
every flag combination a local stream handler is attached, while the
documented selection attaches a cloud handler when use_cloud_logging is
set or the process runs on Compute Engine. -/
theorem get_logger_handler_selection :
    get_logger true false false = Handler.streamHandler ∧
    documentedHandler true false false = Handler.cloudHandler ∧
    (∀ u n g : Bool, get_logger u n g = Handler.streamHandler) := by
  refine ⟨rfl, rfl, ?_⟩
  decide
